import Mathlib

set_option maxRecDepth 100000

/-
Verification of the exam-prep tutoring backend against its natural-language
specification.  The Python sources (backend/main.py,
backend/utils/file_processor.py, backend/utils/topic_extractor.py) are
shallowly embedded below: pure functions become Lean functions, the mutable
per-session dictionaries become explicit state passing over a `Session`
record, and the external collaborators (the hosted LLM, the JSON library,
the PDF/DOCX/OCR loaders) are passed in as oracle arguments, exactly as the
spec treats them (opaque capabilities).  String primitives are implemented
over `List Char` (ASCII case mapping) so that every definition evaluates by
kernel reduction.
-/

namespace ExamAI

/-! ## Python string primitives used by the sources -/

/-- ASCII lower-casing of one character (Python `str.lower` restricted to
the ASCII range, which is all the sources rely on). -/
def lowerChar (c : Char) : Char :=
  if 65 ≤ c.toNat ∧ c.toNat ≤ 90 then Char.ofNat (c.toNat + 32) else c

/-- ASCII upper-casing of one character. -/
def upperChar (c : Char) : Char :=
  if 97 ≤ c.toNat ∧ c.toNat ≤ 122 then Char.ofNat (c.toNat - 32) else c

def pyLower (s : String) : String := String.mk (s.toList.map lowerChar)

def pyUpper (s : String) : String := String.mk (s.toList.map upperChar)

/-- Python whitespace for `str.strip()` / `str.split()`. -/
def isSpaceChar (c : Char) : Bool :=
  c == ' ' || c == '\t' || c == '\n' || c == '\r' || c == Char.ofNat 11 || c == Char.ofNat 12

/-- Python `str.strip()`: drop whitespace from both ends. -/
def pyTrim (s : String) : String :=
  String.mk (((s.toList.dropWhile isSpaceChar).reverse.dropWhile isSpaceChar).reverse)

/-- Python `str.strip(chars)`: remove any of the given characters from both
ends of the string. -/
def pyStripChars (s : String) (cs : List Char) : String :=
  String.mk (((s.toList.dropWhile (fun c => cs.contains c)).reverse.dropWhile
    (fun c => cs.contains c)).reverse)

/-- Splitting a character list on a whitespace predicate, dropping empty
runs: the semantics of Python `str.split()` with no argument. -/
def wordsAux : List Char → List Char → List String
  | [], acc => if acc == [] then [] else [String.mk acc.reverse]
  | c :: rest, acc =>
      if isSpaceChar c then
        if acc == [] then wordsAux rest [] else String.mk acc.reverse :: wordsAux rest []
      else wordsAux rest (c :: acc)

/-- Python `str.split()` with no argument. -/
def pyWords (s : String) : List String := wordsAux s.toList []

/-- Splitting on one separator character, keeping empty pieces: the
semantics of Python `str.split(sep)` for a one-character separator. -/
def splitOnCharAux (sep : Char) : List Char → List Char → List String
  | [], acc => [String.mk acc.reverse]
  | c :: rest, acc =>
      if c == sep then String.mk acc.reverse :: splitOnCharAux sep rest []
      else splitOnCharAux sep rest (c :: acc)

def pySplitOnChar (s : String) (sep : Char) : List String := splitOnCharAux sep s.toList []

/-- Is `needle` a contiguous sublist of `hay`?  (Python `needle in hay`.) -/
def listContainsSub (needle : List Char) : List Char → Bool
  | [] => needle.isPrefixOf []
  | c :: rest => needle.isPrefixOf (c :: rest) || listContainsSub needle rest

/-- Python `needle in hay` on strings: substring test. -/
def strContains (hay needle : String) : Bool :=
  listContainsSub needle.toList hay.toList

/-- Python `hay.replace("- ", "\n")`: left-to-right, non-overlapping. -/
def replaceDashSpace : List Char → List Char
  | [] => []
  | '-' :: ' ' :: rest => '\n' :: replaceDashSpace rest
  | c :: rest => c :: replaceDashSpace rest

/-- Python `os.path.splitext(name)[1].lower()` for a bare file name (no
directory separators): the suffix starting at the last dot, lowercased,
except that a run of leading dots never starts an extension. -/
def extOf (name : String) : String :=
  let cs := name.toList
  match ((List.range cs.length).filter (fun i => cs.getD i ' ' == '.')).getLast? with
  | none => ""
  | some d =>
      if (cs.take d).all (fun c => c == '.') then ""
      else pyLower (String.mk (cs.drop d))

/-! ## File processor (backend/utils/file_processor.py) -/

def SUPPORTED_EXTENSIONS : List String := [".pdf", ".docx", ".txt", ".png", ".jpg", ".jpeg"]

def IMAGE_EXTENSIONS : List String := [".png", ".jpg", ".jpeg"]

/-- Abstract content of an uploaded file, as seen by the external loaders:
a PDF is a list of page texts (what `PyPDFLoader.load` yields), a DOCX is a
list of paragraph texts, a TXT is its raw text, an image is its OCR text,
and `bad` stands for bytes on which the matching loader raises. -/
inductive SrcFile where
  | pdf (docs : List String)
  | docx (paras : List String)
  | txt (text : String)
  | image (ocrText : String)
  | bad (msg : String)
deriving DecidableEq, Repr

/-- Page estimate used for DOCX and TXT: `max(1, math.ceil(wordCount / 300))`. -/
def pageEstimate (text : String) : Nat :=
  max 1 (((pyWords text).length + 299) / 300)

/-- `extract_text` from file_processor.py: dispatch on the path's extension
and return `(text, page_count)`, or an error message for unsupported
extensions / failing loaders (a Python exception). -/
def extract_text (file_path : String) (content : SrcFile) : Except String (String × Nat) :=
  let ext := extOf file_path
  if ext == ".pdf" then
    match content with
    | SrcFile.pdf docs => Except.ok (String.intercalate "\n" docs, docs.length)
    | _ => Except.error "could not parse file as PDF"
  else if ext == ".docx" then
    match content with
    | SrcFile.docx paras =>
        let text := String.intercalate "\n" (paras.filter (fun p => !(pyTrim p == "")))
        Except.ok (text, pageEstimate text)
    | _ => Except.error "could not parse file as DOCX"
  else if ext == ".txt" then
    match content with
    | SrcFile.txt text => Except.ok (text, pageEstimate text)
    | _ => Except.error "could not read file"
  else if IMAGE_EXTENSIONS.contains ext then
    match content with
    | SrcFile.image t => Except.ok (pyTrim t, 1)
    | _ => Except.error "could not parse file as image"
  else Except.error ("Unsupported file type: " ++ ext)

/-! ## Upload endpoint, temp-file bookkeeping (backend/main.py, upload_files) -/

/-- One file of an upload batch: its client-declared name and its content as
the loaders will see it once copied to a temp file. -/
structure UFile where
  filename : String
  content : SrcFile
deriving DecidableEq, Repr

inductive UploadResult where
  | httpError (status : Nat) (detail : String)
  | success (files_processed : Nat) (pages : Nat) (combined : String)
deriving DecidableEq, Repr

/-- The per-file loop of `upload_files`.  `i` numbers the temp file created
for the next file; `tmps` are the temp files created so far and not yet
removed.  The second component of the result is the list of temp files
still existing when the endpoint returns. -/
def uploadLoop : List UFile → Nat → List Nat → String → Nat → Nat → UploadResult × List Nat
  | [], _, _, combined, fp, pg =>
      -- after the loop every accumulated temp file is removed
      if pyTrim combined == "" then
        (UploadResult.httpError 400 "No text could be extracted from the uploaded files.", [])
      else (UploadResult.success fp pg combined, [])
  | f :: rest, i, tmps, combined, fp, pg =>
      let ext := extOf f.filename
      if !(SUPPORTED_EXTENSIONS.contains ext) then
        -- the HTTPException for an unsupported extension is raised without
        -- touching the temp files accumulated for the earlier files
        (UploadResult.httpError 400 ("Unsupported file type: " ++ ext), tmps)
      else
        match extract_text ("tmp" ++ ext) f.content with
        | Except.error m =>
            -- the per-file error path removes every temp file first
            (UploadResult.httpError 500 ("Error processing " ++ f.filename ++ ": " ++ m), [])
        | Except.ok (text, pages) =>
            if pyTrim text == "" then uploadLoop rest (i + 1) (tmps ++ [i]) combined fp pg
            else uploadLoop rest (i + 1) (tmps ++ [i]) (combined ++ text ++ "\n\n") (fp + 1) (pg + pages)

/-- `upload_files` restricted to its observable result and the temp files it
leaves behind on disk. -/
def upload_files (files : List UFile) : UploadResult × List Nat :=
  if files == [] then (UploadResult.httpError 400 "No files provided.", [])
  else uploadLoop files 0 [] "" 0 0

/-! ## Session state and the chat endpoint (backend/main.py, chat) -/

/-- A per-session record, exactly the keys `chat` creates for a fresh
session id.  `weak_topics` is the Python dict as an association list in
insertion order. -/
structure Session where
  mode : String
  current_topic : String
  weak_topics : List (String × Nat)
  total_questions : Nat
  correct_answers : Nat
  document_type : Option String
  syllabus_topics : List (String × List String)
deriving DecidableEq, Repr

def freshSession : Session :=
  { mode := "teach", current_topic := "general", weak_topics := [],
    total_questions := 0, correct_answers := 0, document_type := none,
    syllabus_topics := [] }

/-- Python `d.get(k, 0)` on the weak-topics dict. -/
def wtGet : List (String × Nat) → String → Nat
  | [], _ => 0
  | p :: rest, k => if p.1 = k then p.2 else wtGet rest k

/-- Python `d[k] = d.get(k, 0) + 1`: update the existing key in place or
append a new key with count 1. -/
def wtIncr : List (String × Nat) → String → List (String × Nat)
  | [], k => [(k, 1)]
  | p :: rest, k => if p.1 = k then (p.1, p.2 + 1) :: rest else p :: wtIncr rest k

def wtKeys (l : List (String × Nat)) : List String := l.map Prod.fst

/-- The inputs of one chat turn: the request fields plus the behavior of
the external collaborators during the turn (whether a document was ever
uploaded, and the two LLM completions the turn may ask for). -/
structure ChatIn where
  question : String
  mode : String
  vectorUploaded : Bool
  evalResponse : String
  llmAnswer : String
deriving DecidableEq, Repr

/-- The JSON body `chat` answers with (on its non-error paths). -/
structure ChatOut where
  answer : String
  mode : String
  accuracy : ℚ
  weak_topics : List (String × Nat)
deriving DecidableEq, Repr

/-- Mode normalization: anything outside teach/practice/test (including a
null mode) falls back to "teach". -/
def normMode (m : String) : String :=
  if m = "teach" ∨ m = "practice" ∨ m = "test" then m else "teach"

/-- `correct_answers / total_questions if total_questions > 0 else 0.0`. -/
def pyRatio (c t : Nat) : ℚ := if t = 0 then 0 else mkRat (c : Int) t

/-- Python `round(x, 2)` modelled as exact decimal rounding, ties to even
(`x` is a small exact ratio in every reachable call).  `n` is the floor of
`100 * q` and `r2 / (2 * den)` its fractional part. -/
def round2 (q : ℚ) : ℚ :=
  let a : Int := q.num * 100
  let d : Int := (q.den : Int)
  let n : Int := a.fdiv d
  let r2 : Int := 2 * (a - n * d)
  if r2 < d then mkRat n 100
  else if d < r2 then mkRat (n + 1) 100
  else if n % 2 = 0 then mkRat n 100 else mkRat (n + 1) 100

/-- The topic-locking step of `chat` (main.py lines 263-278): returns the
stored topic after the turn and the transient extracted phrase.  The
session topic is (re)assigned only while it is still "general"; an empty
message locks it to the default "general topic". -/
def lockTopic (topic msg : String) : String × String :=
  if topic = "general" then
    match pyWords msg with
    | [] => ("general topic", "general")
    | w :: ws => let e := pyLower (String.intercalate " " ((w :: ws).take 4)); (e, e)
  else
    match pyWords msg with
    | [] => (topic, topic)
    | w :: ws => (topic, pyLower (String.intercalate " " ((w :: ws).take 4)))

/-- Does the transient extracted phrase match some syllabus topic
(case-insensitive substring containment either way)? -/
def sylMatches (syl : List (String × List String)) (extracted : String) : Bool :=
  syl.any (fun u => u.2.any (fun t => strContains extracted (pyLower t)
    || strContains (pyLower t) extracted))

def chatMsg (inp : ChatIn) : String := pyTrim inp.question

/-- The session as updated by mode handling and topic locking, before any
of the response branches. -/
def chatS2 (inp : ChatIn) (s : Session) : Session :=
  { s with mode := normMode inp.mode,
           current_topic := (lockTopic s.current_topic (chatMsg inp)).1 }

/-- The syllabus-scope refusal condition (main.py lines 281-304). -/
def refusalCond (inp : ChatIn) (s : Session) : Bool :=
  (s.document_type == some "syllabus")
    && !s.syllabus_topics.isEmpty
    && !(sylMatches s.syllabus_topics (lockTopic s.current_topic (chatMsg inp)).2)
    && !((lockTopic s.current_topic (chatMsg inp)).2 == "general")

/-- The single-letter test-answer condition (main.py line 309). -/
def gradeCond (inp : ChatIn) : Bool :=
  (normMode inp.mode == "test") && ["A", "B", "C", "D"].contains (pyUpper (chatMsg inp))

/-- The degenerate test-message guard (main.py line 380). -/
def guardCond (inp : ChatIn) : Bool :=
  (normMode inp.mode == "test")
    && !(strContains (pyLower (chatMsg inp)) "test")
    && !(strContains (pyLower (chatMsg inp)) "quiz")
    && decide ((pyWords (chatMsg inp)).length < 3)

/-- The single-letter grading branch: count the question, ask the LLM to
grade, count a correct answer or bump the weak-topic counter. -/
def gradeTurn (inp : ChatIn) (s2 : Session) : Session × ChatOut :=
  let tq := s2.total_questions + 1
  let isC := strContains (pyUpper inp.evalResponse) "[CORRECT]"
  let ca := if isC then s2.correct_answers + 1 else s2.correct_answers
  let wk := if isC then s2.weak_topics else wtIncr s2.weak_topics s2.current_topic
  ({ s2 with total_questions := tq, correct_answers := ca, weak_topics := wk },
   { answer := inp.evalResponse, mode := normMode inp.mode,
     accuracy := round2 (pyRatio ca tq), weak_topics := wk })

/-- One turn of the `chat` endpoint on one session: the updated session and
the response payload.  The refusal branch answers with
`session.get("accuracy", 0.0)`, and no code path ever stores an
`accuracy` key in the session, so it is the constant `0.0`; the guard
branch hard-codes `0.0`. -/
def chat (inp : ChatIn) (s : Session) : Session × ChatOut :=
  let s2 := chatS2 inp s
  if refusalCond inp s then
    (s2, { answer := "This topic does not appear in your uploaded syllabus.",
           mode := normMode inp.mode, accuracy := 0, weak_topics := s2.weak_topics })
  else if gradeCond inp then gradeTurn inp s2
  else if guardCond inp then
    (s2, { answer := "Say generate test or start quiz to begin the test.",
           mode := normMode inp.mode, accuracy := 0, weak_topics := s2.weak_topics })
  else
    (s2, { answer := inp.llmAnswer, mode := normMode inp.mode,
           accuracy := round2 (pyRatio s2.correct_answers s2.total_questions),
           weak_topics := s2.weak_topics })

/-- What `upload_files` does to one already-existing session (main.py
lines 219-221): overwrite its document type and syllabus topics. -/
def uploadInject (dt : String) (topics : List (String × List String)) (s : Session) : Session :=
  { s with document_type := some dt,
           syllabus_topics := if dt = "syllabus" then topics else [] }

/-- The session states reachable from a fresh session through chat turns
and upload-time injections. -/
inductive ReachS : Session → Prop where
  | fresh : ReachS freshSession
  | chatTurn : ∀ (inp : ChatIn) (s : Session), ReachS s → ReachS (chat inp s).1
  | upload : ∀ (dt : String) (topics : List (String × List String)) (s : Session),
      ReachS s → ReachS (uploadInject dt topics s)

/-! ## The global application state (backend/main.py, module level) -/

/-- The module-level mutable state of main.py: one global `vector_store`
(modelled by the combined text it was last built from) shared by every
session, and the session registry. -/
structure AppState where
  vector_store : Option String
  sessions : List (String × Session)
deriving DecidableEq, Repr

/-- Association-list lookup for the session registry. -/
def slookup {α : Type} : List (String × α) → String → Option α
  | [], _ => none
  | p :: rest, k => if p.1 = k then some p.2 else slookup rest k

/-- The state effect of a successful `upload_files` call: the single global
index is rebuilt from the new combined text (discarding the previous one),
and the parsed document type and topics are written into every existing
session. -/
def upload_apply (combined dt : String) (topics : List (String × List String))
    (st : AppState) : AppState :=
  { vector_store := some combined,
    sessions := st.sessions.map (fun p => (p.1, uploadInject dt topics p.2)) }

/-! ## Topic extractor (backend/utils/topic_extractor.py) -/

/-- Parsed JSON values, as the external `json.loads` returns them. -/
inductive Json where
  | jstr (s : String)
  | jnum (n : Int)
  | jbool (b : Bool)
  | jnull
  | jarr (xs : List Json)
  | jobj (fields : List (String × Json))

/-- `[str(t).strip() for t in topics if str(t).strip()]`, with `pystr` the
external Python `str`. -/
def cleanedTopics (pystr : Json → String) (xs : List Json) : List String :=
  (xs.map (fun t => pyTrim (pystr t))).filter (fun s => !(s == ""))

/-- The first list-valued entry of a parsed dict (`for v in topics.values()`
returning on the first `isinstance(v, list)`). -/
def firstListVal : List (String × Json) → Option (List Json)
  | [] => none
  | (_, Json.jarr xs) :: _ => some xs
  | _ :: rest => firstListVal rest

/-- The substring matched by the greedy dotall bracket regex search: from
the first opening bracket to the last closing bracket, when the latter
comes after the former. -/
def bracketSpan (raw : String) : Option String :=
  let cs := raw.toList
  match cs.findIdx? (fun c => c == '['), cs.reverse.findIdx? (fun c => c == ']') with
  | some i, some jr =>
      let j := cs.length - 1 - jr
      if i < j then some (String.mk ((cs.drop i).take (j - i + 1))) else none
  | _, _ => none

/-- The flat-list fallback tier: replace "- " by newlines, split on
newlines, keep the lines longer than 2 characters once stripped, clean
each line (strip whitespace, dash/bullet/star marks, whitespace again,
double quotes, single quotes) and cap the result at 30 entries. -/
def flatSplit (raw : String) : List String :=
  let lines := pySplitOnChar (String.mk (replaceDashSpace raw.toList)) '\n'
  let topics := (lines.filter (fun l => 2 < (pyTrim l).length)).map (fun l =>
    pyStripChars (pyStripChars (pyTrim (pyStripChars (pyTrim l) ['-', '•', '*']))
      ['"']) [Char.ofNat 39])
  topics.take 30

/-- `extract_topics` from topic_extractor.py, with the LLM call and the
JSON parser passed in as oracles: `llmOut` is `none` when `llm.invoke`
raises (the outer `except` returns the empty list), and `loads raw = none`
models `json.loads(raw)` raising `JSONDecodeError`.  The function is a
total Lean function: no path raises to the caller. -/
def extract_topics (loads : String → Option Json) (pystr : Json → String)
    (text : String) (llmOut : Option String) : List String :=
  if pyTrim text == "" then []
  else
    match llmOut with
    | none => []
    | some r0 =>
        let raw := pyTrim r0
        match loads raw with
        | some (Json.jarr xs) => cleanedTopics pystr xs
        | some (Json.jobj fs) =>
            match firstListVal fs with
            | some xs => cleanedTopics pystr xs
            | none => []
        | some _ => []
        | none =>
            match bracketSpan raw with
            | some sub =>
                match loads sub with
                | some (Json.jarr xs) => cleanedTopics pystr xs
                | _ => flatSplit raw
            | none => flatSplit raw

/-! ## MCQ generator and validator (spec 4.4) and test state machine
(spec 3, 4.5, 4.6).  These components belong to the repository variant
that is not among the files under src/, so they are modelled from the
spec's words. -/

/-- Modelled from the spec: an MCQ record as parsed from the model's JSON
(spec 3); the fields are optional / keyed by letter so that structural
validation has something to reject. -/
structure RawMCQ where
  question : Option String
  options : List (String × String)
  correct : Option String
deriving DecidableEq, Repr

/-- Modelled from the spec: `validateStructure` — a list of exactly 5
entries, each carrying a question, all four lettered options, and a
correct letter among a-d case-insensitively (spec 4.4). -/
def validateStructure (l : List RawMCQ) : Bool :=
  (l.length == 5) && l.all (fun q =>
    q.question.isSome &&
    ["a", "b", "c", "d"].all (fun k => q.options.any (fun p => p.1 == k)) &&
    (match q.correct with
     | some c => ["a", "b", "c", "d"].contains (pyLower c)
     | none => false))

/-- Modelled from the spec: the concatenation of all five questions' text
and options, the haystack for the relevance keywords (spec 4.4). -/
def mcqText (l : List RawMCQ) : String :=
  String.intercalate " " (l.map (fun q =>
    (q.question.getD "") ++ " " ++ String.intercalate " " (q.options.map Prod.snd)))

/-- Modelled from the spec: `validateRelevance` — keywords are the
lowercased topic words longer than 2 characters; relevance holds iff the
fraction of keywords appearing anywhere in the concatenated text is at
least 0.3, vacuously true with no keywords (spec 4.4). -/
def validateRelevance (topic : String) (l : List RawMCQ) : Bool :=
  let kws := (pyWords (pyLower topic)).filter (fun w => 2 < w.length)
  if kws.isEmpty then true
  else
    let txt := pyLower (mcqText l)
    let hits := (kws.filter (fun w => strContains txt w)).length
    decide (3 * kws.length ≤ 10 * hits)

/-- Modelled from the spec: the attempt loop of `generate` — `best` holds
the first structurally valid attempt seen so far (never overwritten); a
structurally valid and relevant attempt returns immediately (spec 4.4). -/
def genLoop (topic : String) :
    List (Option (List RawMCQ)) → Option (List RawMCQ) → List RawMCQ
  | [], best => best.getD []
  | a :: rest, best =>
      match a with
      | none => genLoop topic rest best
      | some l =>
          if validateStructure l then
            if validateRelevance topic l then l
            else genLoop topic rest (some (best.getD l))
          else genLoop topic rest best

/-- Modelled from the spec: `generate(topic, context)` with the up-to-3
parsed LLM responses passed as an oracle list; an unparseable response is
`none` (spec 4.4, up to 3 attempts). -/
def generate (topic : String) (attempts : List (Option (List RawMCQ))) : List RawMCQ :=
  genLoop topic (attempts.take 3) none

/-- Modelled from the spec: an attempt that is structurally valid and
relevant (the immediate-return condition of spec 4.4). -/
def attemptGood (topic : String) (a : Option (List RawMCQ)) : Bool :=
  match a with
  | some l => validateStructure l && validateRelevance topic l
  | none => false

/-- Modelled from the spec: a structurally valid attempt (the best-effort
condition of spec 4.4). -/
def attemptValid (a : Option (List RawMCQ)) : Bool :=
  match a with
  | some l => validateStructure l
  | none => false

/-- Modelled from the spec: the test-machine view of a session — mode,
topic, weak topics, and the test fields testActive / questions /
currentQuestionIndex / score (spec 3). -/
structure TSession where
  mode : String
  topic : String
  weakTopics : List (String × Nat)
  testActive : Bool
  questions : List RawMCQ
  currentQuestionIndex : Nat
  score : Nat
deriving DecidableEq, Repr

/-- Modelled from the spec: a lazily created session — counters zeroed and
mode teach (spec 3). -/
def freshT : TSession :=
  { mode := "teach", topic := "general", weakTopics := [], testActive := false,
    questions := [], currentQuestionIndex := 0, score := 0 }

/-- The stored correct letter of a question, lowercased for the
case-insensitive comparison. -/
def RawMCQ.correctLetter (q : RawMCQ) : String := pyLower (q.correct.getD "")

/-- Modelled from the spec: the response shapes a test-machine turn can
emit (spec 4.5): feedback carries the correctness verdict and names the
stored correct letter; the terminal answer carries the score summary. -/
inductive TestResp where
  | plain (answer : String)
  | reject (msg : String)
  | testPrompt (msg : String)
  | genFailed (msg : String)
  | started (first : RawMCQ)
  | feedbackNext (isCorrect : Bool) (correctLetter : String) (next : RawMCQ)
  | feedbackDone (isCorrect : Bool) (correctLetter : String) (score : Nat) (total : Nat)
deriving DecidableEq, Repr

/-- Modelled from the spec: one turn of the session state machine
(spec 4.5 transitions with spec 4.6 routing).  `attempts` is the oracle
for the MCQ generator's LLM calls during this turn.  Teach/practice
selection clears `testActive` and has no other side effect on the test
fields; an active-test letter answer is graded against the stored correct
letter and advances the index; reaching the question count fully resets
the test fields and restores teach mode; a degenerate test message is
rejected without state change; a test start stores the generated
questions or falls back to teach mode on empty generation. -/
def testStep (msg mode : String) (attempts : List (Option (List RawMCQ)))
    (s0 : TSession) : TSession × TestResp :=
  let m := normMode mode
  let msg := pyTrim msg
  let s := { s0 with topic := (lockTopic s0.topic msg).1 }
  if m = "teach" ∨ m = "practice" then
    ({ s with mode := m, testActive := false }, TestResp.plain "lesson")
  else
    if s.testActive then
      let ans := pyLower msg
      if ans = "a" ∨ ans = "b" ∨ ans = "c" ∨ ans = "d" then
        match s.questions.get? s.currentQuestionIndex with
        | none => ({ s with mode := "test" }, TestResp.reject "answer with a, b, c, or d")
        | some q =>
            let isCorrect := ans = q.correctLetter
            let score2 := if isCorrect then s.score + 1 else s.score
            let weak2 := if isCorrect then s.weakTopics else wtIncr s.weakTopics s.topic
            let idx2 := s.currentQuestionIndex + 1
            if idx2 = s.questions.length then
              ({ mode := "teach", topic := s.topic, weakTopics := weak2,
                 testActive := false, questions := [], currentQuestionIndex := 0,
                 score := 0 },
               TestResp.feedbackDone isCorrect q.correctLetter score2 s.questions.length)
            else
              ({ s with
                  mode := "test"
                  score := score2
                  weakTopics := weak2
                  currentQuestionIndex := idx2 },
               TestResp.feedbackNext isCorrect q.correctLetter
                 ((s.questions.get? idx2).getD q))
      else
        ({ s with mode := "test" }, TestResp.reject "answer with a, b, c, or d")
    else
      if !(strContains (pyLower msg) "test") && !(strContains (pyLower msg) "quiz")
          && decide ((pyWords msg).length < 3) then
        ({ s with mode := "test" },
         TestResp.testPrompt "Say generate test or start quiz to begin the test.")
      else
        let qs := generate s.topic attempts
        if qs.isEmpty then
          ({ s with mode := "teach", testActive := false },
           TestResp.genFailed "Could not generate a test; returning to teach mode.")
        else
          ({ s with
              mode := "test"
              testActive := true
              questions := qs
              currentQuestionIndex := 0
              score := 0 },
           TestResp.started (qs.headD ⟨none, [], none⟩))

/-- Modelled from the spec: the test-machine states reachable from a fresh
session through chat turns. -/
inductive ReachT : TSession → Prop where
  | fresh : ReachT freshT
  | step : ∀ (msg mode : String) (attempts : List (Option (List RawMCQ))) (s : TSession),
      ReachT s → ReachT (testStep msg mode attempts s).1

/-- A well-formed sample question whose correct letter is "a". -/
def mcqSample : RawMCQ :=
  ⟨some "what is the first test question",
   [("a", "one"), ("b", "two"), ("c", "three"), ("d", "four")], some "a"⟩

/-- A structurally valid five-question list. -/
def fiveMCQs : List RawMCQ := List.replicate 5 mcqSample

/-- A mid-test session: active test on topic algebra, first question up. -/
def midTestSession : TSession :=
  { mode := "test", topic := "algebra", weakTopics := [], testActive := true,
    questions := fiveMCQs, currentQuestionIndex := 0, score := 0 }

/-- Two-session registry used to exercise the upload effect: session s2
had been classified as a textbook session before the upload. -/
def c9State : AppState :=
  { vector_store := some "old text",
    sessions := [("s1", freshSession),
                 ("s2", { freshSession with document_type := some "textbook" })] }

/-! ## Claims about extraction and upload cleanup -/

/-- Claim C7: for every supported file, `extract_text` returns a unit count
equal to the page count for `.pdf`; equal to `ceil(wordCount/300)` with a
floor of 1 for `.docx` and `.txt` (word count taken on the extracted text);
and exactly 1 for image files; any extension outside the supported set
fails with an unsupported-format error. -/
theorem extraction_unit_counts (p : String) (docs paras : List String)
    (t o : String) (c : SrcFile) :
    (extOf p = ".pdf" →
      extract_text p (SrcFile.pdf docs)
        = Except.ok (String.intercalate "\n" docs, docs.length)) ∧
    (extOf p = ".docx" →
      extract_text p (SrcFile.docx paras)
        = Except.ok (String.intercalate "\n" (paras.filter (fun q => !(pyTrim q == ""))),
            max 1 (((pyWords (String.intercalate "\n"
              (paras.filter (fun q => !(pyTrim q == ""))))).length + 299) / 300))) ∧
    (extOf p = ".txt" →
      extract_text p (SrcFile.txt t)
        = Except.ok (t, max 1 (((pyWords t).length + 299) / 300))) ∧
    (IMAGE_EXTENSIONS.contains (extOf p) = true →
      extract_text p (SrcFile.image o) = Except.ok (pyTrim o, 1)) ∧
    (SUPPORTED_EXTENSIONS.contains (extOf p) = false →
      extract_text p c = Except.error ("Unsupported file type: " ++ extOf p)) := by
  refine ⟨fun h => ?_, fun h => ?_, fun h => ?_, fun h => ?_, fun h => ?_⟩
  · simp [extract_text, h, pageEstimate]
  · simp [extract_text, h, pageEstimate]
  · simp [extract_text, h, pageEstimate]
  · have hm : extOf p ∈ IMAGE_EXTENSIONS := by
      simpa using h
    simp only [IMAGE_EXTENSIONS, List.mem_cons, List.not_mem_nil, or_false] at hm
    rcases hm with h1 | h1 | h1 <;> simp [extract_text, h1, IMAGE_EXTENSIONS]
  · have hm : ¬ (extOf p ∈ SUPPORTED_EXTENSIONS) := by
      simpa using h
    simp only [SUPPORTED_EXTENSIONS, List.mem_cons, List.mem_singleton, not_or] at hm
    obtain ⟨h1, h2, h3, h4, h5, h6⟩ := hm
    cases c <;>
      simp [extract_text, h1, h2, h3, h4, h5, h6, IMAGE_EXTENSIONS]

/-- Concrete instances of `extraction_unit_counts`: a 2-page PDF, a DOCX
with a blank paragraph, a TXT, a PNG, and an unsupported extension. -/
theorem extraction_unit_counts_witness :
    extract_text "a.pdf" (SrcFile.pdf ["p1", "p2"]) = Except.ok ("p1\np2", 2) ∧
    extract_text "b.docx" (SrcFile.docx ["one two", " ", "three"])
      = Except.ok ("one two\nthree", 1) ∧
    extract_text "c.txt" (SrcFile.txt "hello world") = Except.ok ("hello world", 1) ∧
    extract_text "d.png" (SrcFile.image " scan ") = Except.ok ("scan", 1) ∧
    extract_text "e.xyz" (SrcFile.txt "zzz") = Except.error "Unsupported file type: .xyz" :=
  ⟨(extraction_unit_counts "a.pdf" ["p1", "p2"] [] "" "" (SrcFile.txt "")).1 (by decide),
   (extraction_unit_counts "b.docx" [] ["one two", " ", "three"] "" "" (SrcFile.txt "")).2.1
     (by decide),
   (extraction_unit_counts "c.txt" [] [] "hello world" "" (SrcFile.txt "")).2.2.1 (by decide),
   (extraction_unit_counts "d.png" [] [] "" " scan " (SrcFile.txt "")).2.2.2.1 (by decide),
   (extraction_unit_counts "e.xyz" [] [] "" "" (SrcFile.txt "zzz")).2.2.2.2 (by decide)⟩

/-- Claim C6, evaluated at the failing input: a batch whose first file is a
valid PDF and whose second file has an unsupported extension returns the
400 error while the first file's temp file (number 0) is still on disk;
by contrast the success path and the per-file-extraction-error path both
end with no temp file left. -/
theorem upload_temp_leak_at_failing_input :
    upload_files [⟨"notes.pdf", SrcFile.pdf ["page one text"]⟩,
        ⟨"virus.xyz", SrcFile.bad "boom"⟩]
      = (UploadResult.httpError 400 "Unsupported file type: .xyz", [0]) ∧
    upload_files [⟨"notes.pdf", SrcFile.pdf ["page one text"]⟩]
      = (UploadResult.success 1 1 "page one text\n\n", []) ∧
    upload_files [⟨"notes.pdf", SrcFile.pdf ["page one text"]⟩, ⟨"broken.docx", SrcFile.bad "x"⟩]
      = (UploadResult.httpError 500 "Error processing broken.docx: could not parse file as DOCX",
          []) := by
  decide

/-! ## Topic locking (claim C1) -/

theorem lockTopic_of_ne (topic msg : String) (h : topic ≠ "general") :
    (lockTopic topic msg).1 = topic := by
  unfold lockTopic
  rw [if_neg h]
  cases pyWords msg <;> rfl

theorem chat_topic (inp : ChatIn) (s : Session) :
    (chat inp s).1.current_topic = (lockTopic s.current_topic (chatMsg inp)).1 := by
  unfold chat gradeTurn chatS2
  split
  · rfl
  · split
    · rfl
    · split <;> rfl

/-- Claim C1: once a session's topic holds a value other than "general", no
chat turn overwrites it, whatever the message, mode or LLM behavior of that
turn; the per-turn 4-token extracted phrase is only transient. -/
theorem topic_lock (inp : ChatIn) (s : Session) (h : s.current_topic ≠ "general") :
    (chat inp s).1.current_topic = s.current_topic := by
  rw [chat_topic, lockTopic_of_ne _ _ h]

/-- Instance of `topic_lock`: a locked topic "algebra" survives a turn that
asks to switch subjects. -/
theorem topic_lock_witness :
    (chat ⟨"switch to calculus now", "teach", false, "", "x"⟩
      { freshSession with current_topic := "algebra" }).1.current_topic = "algebra" :=
  topic_lock ⟨"switch to calculus now", "teach", false, "", "x"⟩
    { freshSession with current_topic := "algebra" } (by decide)

/-! ## Weak-topic monotonicity (claim C10) -/

theorem wtGet_wtIncr_le (l : List (String × Nat)) (k k' : String) :
    wtGet l k' ≤ wtGet (wtIncr l k) k' := by
  induction l with
  | nil =>
      simp only [wtGet, wtIncr]
      split <;> omega
  | cons p rest ih =>
      simp only [wtIncr]
      by_cases hp : p.1 = k
      · rw [if_pos hp]
        simp only [wtGet]
        split <;> omega
      · rw [if_neg hp]
        simp only [wtGet]
        split
        · omega
        · exact ih

theorem wtGet_wtIncr_self (l : List (String × Nat)) (k : String) :
    wtGet (wtIncr l k) k = wtGet l k + 1 := by
  induction l with
  | nil => simp [wtGet, wtIncr]
  | cons p rest ih =>
      simp only [wtIncr]
      by_cases hp : p.1 = k
      · rw [if_pos hp]
        simp [wtGet, hp]
      · rw [if_neg hp]
        simp [wtGet, hp, ih]

theorem wtKeys_wtIncr (l : List (String × Nat)) (k : String) :
    wtKeys (wtIncr l k) = wtKeys l ∨ wtKeys (wtIncr l k) = wtKeys l ++ [k] := by
  induction l with
  | nil => right; rfl
  | cons p rest ih =>
      simp only [wtIncr]
      by_cases hp : p.1 = k
      · rw [if_pos hp]; left; rfl
      · rw [if_neg hp]
        rcases ih with ih | ih
        · left; simp [wtKeys] at ih ⊢; exact ih
        · right; simp [wtKeys] at ih ⊢; exact ih

/-- Claim C10: over any chat turn the weak-topic counts never decrease and
no key is removed (the key list is unchanged or gains exactly the locked
topic); the dict changes at all only on the single-letter test-mode path
with the answer graded incorrect, and then by exactly one increment of the
locked topic's count. -/
theorem weak_topics_monotone (inp : ChatIn) (s : Session) :
    (∀ k, wtGet s.weak_topics k ≤ wtGet (chat inp s).1.weak_topics k) ∧
    (wtKeys (chat inp s).1.weak_topics = wtKeys s.weak_topics ∨
      wtKeys (chat inp s).1.weak_topics
        = wtKeys s.weak_topics ++ [(chat inp s).1.current_topic]) ∧
    ((chat inp s).1.weak_topics = s.weak_topics ∨
      ((chat inp s).1.weak_topics = wtIncr s.weak_topics (chat inp s).1.current_topic ∧
        normMode inp.mode = "test" ∧
        ["A", "B", "C", "D"].contains (pyUpper (chatMsg inp)) = true ∧
        strContains (pyUpper inp.evalResponse) "[CORRECT]" = false)) := by
  unfold chat
  split
  · exact ⟨fun k => le_refl _, Or.inl rfl, Or.inl rfl⟩
  · split
    · rename_i hg
      have hg' : (normMode inp.mode == "test") = true ∧
          (["A", "B", "C", "D"].contains (pyUpper (chatMsg inp))) = true := by
        simpa [gradeCond, Bool.and_eq_true] using hg
      cases hc : strContains (pyUpper inp.evalResponse) "[CORRECT]" with
      | true =>
          simp only [gradeTurn, hc, if_pos]
          exact ⟨fun k => le_refl _, Or.inl rfl, Or.inl rfl⟩
      | false =>
          simp only [gradeTurn, hc, Bool.false_eq_true, if_false]
          refine ⟨fun k => wtGet_wtIncr_le _ _ _, wtKeys_wtIncr _ _,
            Or.inr ⟨rfl, ?_, ?_, by simp [hc]⟩⟩
          · simpa [beq_iff_eq] using hg'.1
          · exact hg'.2
    · split
      · exact ⟨fun k => le_refl _, Or.inl rfl, Or.inl rfl⟩
      · exact ⟨fun k => le_refl _, Or.inl rfl, Or.inl rfl⟩

/-! ## The accuracy field (claim C5) -/

theorem mkRat_unit_bounds (m : ℤ) (h0 : 0 ≤ m) (h1 : m ≤ 100) :
    0 ≤ mkRat m 100 ∧ mkRat m 100 ≤ 1 := by
  rw [Rat.mkRat_eq_div]
  constructor
  · exact div_nonneg (by exact_mod_cast h0) (by norm_num)
  · rw [div_le_one (by norm_num)]
    exact_mod_cast h1

theorem round2_mem_unit (q : ℚ) (h0 : 0 ≤ q) (h1 : q ≤ 1) :
    0 ≤ round2 q ∧ round2 q ≤ 1 := by
  have hdpos : (0 : ℤ) < (q.den : ℤ) := by exact_mod_cast q.den_pos
  have hnum0 : 0 ≤ q.num := Rat.num_nonneg.mpr h0
  have hnumden : q.num ≤ (q.den : ℤ) := by
    have := Rat.le_def.mp h1
    simpa using this
  simp only [round2]
  set a := q.num * 100 with ha
  set d := (q.den : ℤ) with hd
  set n := a.fdiv d with hndef
  have hfd : n = a / d := Int.fdiv_eq_ediv a (le_of_lt hdpos)
  have haud : a ≤ 100 * d := by omega
  have hn0 : 0 ≤ n := by
    rw [hfd]; exact Int.ediv_nonneg (by omega) (le_of_lt hdpos)
  have hn100 : n ≤ 100 := by
    rw [hfd]
    calc a / d ≤ (100 * d) / d := Int.ediv_le_ediv hdpos haud
    _ = 100 := Int.mul_ediv_cancel 100 (ne_of_gt hdpos)
  have hrem : a - n * d = a % d := by
    have h := Int.ediv_add_emod a d
    rw [hfd]
    linarith [h, mul_comm (a / d) d]
  by_cases hc1 : 2 * (a - n * d) < d
  · simp only [if_pos hc1]
    exact mkRat_unit_bounds _ hn0 hn100
  · simp only [if_neg hc1]
    have hd2 : d ≤ 2 * (a - n * d) := not_lt.mp hc1
    have hmul : (2 * n) * d ≤ 199 * d := by nlinarith [hd2, haud]
    have h2n : 2 * n ≤ 199 := Int.le_of_mul_le_mul_right hmul hdpos
    have hn99 : n ≤ 99 := by omega
    by_cases hc2 : d < 2 * (a - n * d)
    · simp only [if_pos hc2]
      exact mkRat_unit_bounds _ (by omega) (by omega)
    · simp only [if_neg hc2]
      by_cases hc3 : n % 2 = 0
      · simp only [if_pos hc3]
        exact mkRat_unit_bounds _ hn0 hn100
      · simp only [if_neg hc3]
        exact mkRat_unit_bounds _ (by omega) (by omega)

theorem pyRatio_nonneg (c t : Nat) : 0 ≤ pyRatio c t := by
  unfold pyRatio
  split
  · exact le_refl 0
  · rw [Rat.mkRat_eq_div]
    exact div_nonneg (by positivity) (by positivity)

theorem pyRatio_le_one (c t : Nat) (h : c ≤ t) : pyRatio c t ≤ 1 := by
  unfold pyRatio
  split
  · exact zero_le_one
  · rename_i ht
    rw [Rat.mkRat_eq_div, div_le_one (by exact_mod_cast Nat.pos_of_ne_zero ht)]
    exact_mod_cast h

/-- The four mutually exclusive response branches of `chat`, as equations. -/
theorem chat_refusal_eq (inp : ChatIn) (s : Session) (h : refusalCond inp s = true) :
    chat inp s = (chatS2 inp s,
      { answer := "This topic does not appear in your uploaded syllabus.",
        mode := normMode inp.mode, accuracy := 0,
        weak_topics := (chatS2 inp s).weak_topics }) := by
  unfold chat
  simp [h]

theorem chat_grade_eq (inp : ChatIn) (s : Session) (h1 : refusalCond inp s = false)
    (h2 : gradeCond inp = true) :
    chat inp s = gradeTurn inp (chatS2 inp s) := by
  unfold chat
  simp [h1, h2]

theorem chat_guard_eq (inp : ChatIn) (s : Session) (h1 : refusalCond inp s = false)
    (h2 : gradeCond inp = false) (h3 : guardCond inp = true) :
    chat inp s = (chatS2 inp s,
      { answer := "Say generate test or start quiz to begin the test.",
        mode := normMode inp.mode, accuracy := 0,
        weak_topics := (chatS2 inp s).weak_topics }) := by
  unfold chat
  simp [h1, h2, h3]

theorem chat_final_eq (inp : ChatIn) (s : Session) (h1 : refusalCond inp s = false)
    (h2 : gradeCond inp = false) (h3 : guardCond inp = false) :
    chat inp s = (chatS2 inp s,
      { answer := inp.llmAnswer, mode := normMode inp.mode,
        accuracy := round2 (pyRatio (chatS2 inp s).correct_answers
          (chatS2 inp s).total_questions),
        weak_topics := (chatS2 inp s).weak_topics }) := by
  unfold chat
  simp [h1, h2, h3]

/-- How a chat turn moves the two counters. -/
theorem chat_counters (inp : ChatIn) (s : Session) :
    ((chat inp s).1.total_questions = s.total_questions ∧
      (chat inp s).1.correct_answers = s.correct_answers) ∨
    ((chat inp s).1.total_questions = s.total_questions + 1 ∧
      ((chat inp s).1.correct_answers = s.correct_answers + 1 ∨
        (chat inp s).1.correct_answers = s.correct_answers)) := by
  unfold chat gradeTurn
  split
  · exact Or.inl ⟨rfl, rfl⟩
  · split
    · cases hc : strContains (pyUpper inp.evalResponse) "[CORRECT]" with
      | true =>
          simp only [hc, if_pos]
          exact Or.inr ⟨rfl, Or.inl rfl⟩
      | false =>
          simp only [hc, Bool.false_eq_true, if_false]
          exact Or.inr ⟨rfl, Or.inr rfl⟩
    · split
      · exact Or.inl ⟨rfl, rfl⟩
      · exact Or.inl ⟨rfl, rfl⟩

/-- Counter invariant over all reachable sessions. -/
theorem reach_counters_le (s : Session) (h : ReachS s) :
    s.correct_answers ≤ s.total_questions := by
  induction h with
  | fresh => exact le_refl 0
  | chatTurn inp s _ ih =>
      rcases chat_counters inp s with ⟨h1, h2⟩ | ⟨h1, h2 | h2⟩ <;> omega
  | upload dt topics s _ ih => exact ih

/-- Claim C5 (amended): on the single-letter grading path and on the
generation path the accuracy field equals correct/total (0.0 when total
is 0) rounded to two decimals, computed on the post-turn counters; the
syllabus-refusal and short-test-message guard paths return the constant
0.0 instead; and on every path the accuracy lies in [0, 1]. -/
theorem accuracy_field (inp : ChatIn) (s : Session) (h : ReachS s) :
    (0 ≤ (chat inp s).2.accuracy ∧ (chat inp s).2.accuracy ≤ 1) ∧
    (refusalCond inp s = false → gradeCond inp = true →
      (chat inp s).2.accuracy
        = round2 (pyRatio (chat inp s).1.correct_answers (chat inp s).1.total_questions)) ∧
    (refusalCond inp s = false → gradeCond inp = false → guardCond inp = false →
      (chat inp s).2.accuracy
        = round2 (pyRatio (chat inp s).1.correct_answers (chat inp s).1.total_questions)) ∧
    (refusalCond inp s = true → (chat inp s).2.accuracy = 0) ∧
    (refusalCond inp s = false → gradeCond inp = false → guardCond inp = true →
      (chat inp s).2.accuracy = 0) := by
  have hct := reach_counters_le s h
  have hb : ∀ c t : Nat, c ≤ t → 0 ≤ round2 (pyRatio c t) ∧ round2 (pyRatio c t) ≤ 1 :=
    fun c t hle => round2_mem_unit _ (pyRatio_nonneg c t) (pyRatio_le_one c t hle)
  cases hr : refusalCond inp s with
  | true =>
      rw [chat_refusal_eq inp s hr]
      exact ⟨⟨le_refl 0, zero_le_one⟩,
        fun hf => by simp at hf,
        fun hf => by simp at hf,
        fun _ => rfl,
        fun hf => by simp at hf⟩
  | false =>
      cases hg : gradeCond inp with
      | true =>
          rw [chat_grade_eq inp s hr hg]
          refine ⟨?_, fun _ _ => rfl,
            fun _ hf => by simp at hf,
            fun hf => by simp at hf,
            fun _ hf => by simp at hf⟩
          unfold gradeTurn
          cases hc : strContains (pyUpper inp.evalResponse) "[CORRECT]" with
          | true =>
              simp only [hc, if_pos]
              exact hb _ _ (by
                have : (chatS2 inp s).correct_answers = s.correct_answers := rfl
                have : (chatS2 inp s).total_questions = s.total_questions := rfl
                omega)
          | false =>
              simp only [hc, Bool.false_eq_true, if_false]
              exact hb _ _ (by
                have : (chatS2 inp s).correct_answers = s.correct_answers := rfl
                have : (chatS2 inp s).total_questions = s.total_questions := rfl
                omega)
      | false =>
          cases hgu : guardCond inp with
          | true =>
              rw [chat_guard_eq inp s hr hg hgu]
              exact ⟨⟨le_refl 0, zero_le_one⟩,
                fun _ hf => by simp at hf,
                fun _ _ hf => by simp at hf,
                fun hf => by simp at hf,
                fun _ _ _ => rfl⟩
          | false =>
              rw [chat_final_eq inp s hr hg hgu]
              exact ⟨hb _ _ hct,
                fun _ hf => by simp at hf,
                fun _ _ _ => rfl,
                fun hf => by simp at hf,
                fun _ _ hf => by simp at hf⟩

theorem slookup_map {α β : Type} (f : α → β) (l : List (String × α)) (k : String) :
    slookup (l.map (fun p => (p.1, f p.2))) k = (slookup l k).map f := by
  induction l with
  | nil => rfl
  | cons p rest ih =>
      simp only [List.map_cons, slookup]
      split <;> simp [ih]

/-- Claim C9 (amended): the retrieval index is one process-global store
shared by all sessions, and a successful upload replaces it wholesale
(discarding the previous index, no merge) while overwriting the
document type and syllabus topics of every existing session; each
session's other fields, and the set of session keys, are unchanged. -/
theorem upload_replaces_globally (combined dt : String)
    (topics : List (String × List String)) (st : AppState) (sid : String) (s : Session)
    (h : slookup st.sessions sid = some s) :
    (upload_apply combined dt topics st).vector_store = some combined ∧
    slookup (upload_apply combined dt topics st).sessions sid
      = some { s with document_type := some dt,
                      syllabus_topics := if dt = "syllabus" then topics else [] } ∧
    (upload_apply combined dt topics st).sessions.map Prod.fst
      = st.sessions.map Prod.fst := by
  refine ⟨rfl, ?_, ?_⟩
  · show slookup (st.sessions.map (fun p => (p.1, uploadInject dt topics p.2))) sid = _
    rw [slookup_map, h]
    rfl
  · simp [upload_apply]

/-- Instance of `upload_replaces_globally` on the two-session registry. -/
theorem upload_replaces_globally_witness :
    (upload_apply "new text" "syllabus" [("Unit I", ["algebra"])] c9State).vector_store
      = some "new text" ∧
    slookup (upload_apply "new text" "syllabus" [("Unit I", ["algebra"])] c9State).sessions "s1"
      = some ({ freshSession with
                document_type := some "syllabus"
                syllabus_topics := [("Unit I", ["algebra"])] }) ∧
    (upload_apply "new text" "syllabus" [("Unit I", ["algebra"])] c9State).sessions.map Prod.fst
      = ["s1", "s2"] := by
  have h := upload_replaces_globally "new text" "syllabus" [("Unit I", ["algebra"])]
    c9State "s1" freshSession (by decide)
  exact ⟨h.1, h.2.1, h.2.2⟩

/-- Claim C9 counterexample: uploads are not session-scoped — a single
upload overwrites the document metadata of the unrelated session s2
(its document type flips from textbook to syllabus) and swaps out the
one shared index under every session, so per-session ownership and the
other-sessions-unchanged frame condition both fail. -/
theorem upload_cross_session_counterexample :
    slookup c9State.sessions "s2" = some { freshSession with document_type := some "textbook" } ∧
    slookup (upload_apply "new text" "syllabus" [("Unit I", ["algebra"])] c9State).sessions "s2"
      = some ({ freshSession with
                document_type := some "syllabus"
                syllabus_topics := [("Unit I", ["algebra"])] }) ∧
    (upload_apply "new text" "syllabus" [("Unit I", ["algebra"])] c9State).vector_store
      ≠ c9State.vector_store := by
  refine ⟨by decide, by decide, by decide⟩

/-- Instance of `accuracy_field` at a concrete grading turn on a fresh
session: the reported accuracy is 1 after one correct answer out of one. -/
theorem accuracy_field_witness :
    0 ≤ (chat ⟨"a", "test", false, "[CORRECT] good", "x"⟩ freshSession).2.accuracy ∧
    (chat ⟨"a", "test", false, "[CORRECT] good", "x"⟩ freshSession).2.accuracy ≤ 1 ∧
    (chat ⟨"a", "test", false, "[CORRECT] good", "x"⟩ freshSession).2.accuracy
      = round2 (pyRatio 1 1) := by
  have h := accuracy_field ⟨"a", "test", false, "[CORRECT] good", "x"⟩ freshSession ReachS.fresh
  exact ⟨h.1.1, h.1.2, h.2.1 (by decide) (by decide)⟩

/-- Claim C5 counterexample: after one correct graded answer (1/1), a
short test-mode message takes the guard path, whose response carries
accuracy 0.0 although correct/total is 1 — so the claim that every
response's accuracy field equals correct/total fails on a reachable
session. -/
theorem accuracy_counterexample :
    ReachS (chat ⟨"a", "test", false, "[CORRECT] good", "x"⟩ freshSession).1 ∧
    (chat ⟨"ok", "test", false, "", "x"⟩
        (chat ⟨"a", "test", false, "[CORRECT] good", "x"⟩ freshSession).1).2.accuracy = 0 ∧
    pyRatio (chat ⟨"ok", "test", false, "", "x"⟩
          (chat ⟨"a", "test", false, "[CORRECT] good", "x"⟩ freshSession).1).1.correct_answers
        (chat ⟨"ok", "test", false, "", "x"⟩
          (chat ⟨"a", "test", false, "[CORRECT] good", "x"⟩ freshSession).1).1.total_questions
      = 1 ∧
    (chat ⟨"ok", "test", false, "", "x"⟩
        (chat ⟨"a", "test", false, "[CORRECT] good", "x"⟩ freshSession).1).2.accuracy
      ≠ pyRatio (chat ⟨"ok", "test", false, "", "x"⟩
          (chat ⟨"a", "test", false, "[CORRECT] good", "x"⟩ freshSession).1).1.correct_answers
        (chat ⟨"ok", "test", false, "", "x"⟩
          (chat ⟨"a", "test", false, "[CORRECT] good", "x"⟩ freshSession).1).1.total_questions :=
  ⟨ReachS.chatTurn _ _ ReachS.fresh, by decide, by decide, by decide⟩


/-! ## Topic-extraction fallback tiers (claim C8) -/

/-- Claim C8: for every model output, extraction attempts a direct
structured parse; on parse failure it parses the bracket-delimited
substring found by the greedy regex search; on failure again it falls
back to splitting on newlines/bullet markers (capped at 30 entries);
exhausted tiers, a missing model output (an LLM exception) or empty input
text all yield the empty result, and the function is total, so it never
raises to its caller. -/
theorem topic_extraction_tiers (loads : String → Option Json) (pystr : Json → String)
    (text r : String) :
    (extract_topics loads pystr text none = []) ∧
    (pyTrim text = "" → extract_topics loads pystr text (some r) = []) ∧
    (pyTrim text ≠ "" →
      (∀ xs, loads (pyTrim r) = some (Json.jarr xs) →
        extract_topics loads pystr text (some r) = cleanedTopics pystr xs) ∧
      (∀ fs xs, loads (pyTrim r) = some (Json.jobj fs) → firstListVal fs = some xs →
        extract_topics loads pystr text (some r) = cleanedTopics pystr xs) ∧
      (∀ fs, loads (pyTrim r) = some (Json.jobj fs) → firstListVal fs = none →
        extract_topics loads pystr text (some r) = []) ∧
      (∀ j, loads (pyTrim r) = some j → (∀ xs, j ≠ Json.jarr xs) →
        (∀ fs, j ≠ Json.jobj fs) → extract_topics loads pystr text (some r) = []) ∧
      (loads (pyTrim r) = none →
        ∀ sub xs, bracketSpan (pyTrim r) = some sub → loads sub = some (Json.jarr xs) →
          extract_topics loads pystr text (some r) = cleanedTopics pystr xs) ∧
      (loads (pyTrim r) = none → bracketSpan (pyTrim r) = none →
        extract_topics loads pystr text (some r) = flatSplit (pyTrim r)) ∧
      (loads (pyTrim r) = none →
        ∀ sub, bracketSpan (pyTrim r) = some sub →
          (∀ xs, loads sub ≠ some (Json.jarr xs)) →
          extract_topics loads pystr text (some r) = flatSplit (pyTrim r))) ∧
    (flatSplit r).length ≤ 30 := by
  refine ⟨?_, ?_, fun hne => ?_, ?_⟩
  · unfold extract_topics
    split <;> rfl
  · intro h
    unfold extract_topics
    simp [h]
  · have hb : (pyTrim text == "") = false := by simpa using hne
    refine ⟨?_, ?_, ?_, ?_, ?_, ?_, ?_⟩
    · intro xs hl
      simp only [extract_topics, hb, Bool.false_eq_true, if_false, hl]
    · intro fs xs hl hf
      simp only [extract_topics, hb, Bool.false_eq_true, if_false, hl, hf]
    · intro fs hl hf
      simp only [extract_topics, hb, Bool.false_eq_true, if_false, hl, hf]
    · intro j hl hna hno
      cases j with
      | jarr xs => exact absurd rfl (hna xs)
      | jobj fs => exact absurd rfl (hno fs)
      | jstr s => simp only [extract_topics, hb, Bool.false_eq_true, if_false, hl]
      | jnum n => simp only [extract_topics, hb, Bool.false_eq_true, if_false, hl]
      | jbool b => simp only [extract_topics, hb, Bool.false_eq_true, if_false, hl]
      | jnull => simp only [extract_topics, hb, Bool.false_eq_true, if_false, hl]
    · intro hl sub xs hs hsub
      simp only [extract_topics, hb, Bool.false_eq_true, if_false, hl, hs, hsub]
    · intro hl hs
      simp only [extract_topics, hb, Bool.false_eq_true, if_false, hl, hs]
    · intro hl sub hs hnone
      cases hsub : loads sub with
      | none => simp only [extract_topics, hb, Bool.false_eq_true, if_false, hl, hs, hsub]
      | some j =>
          cases j with
          | jarr xs => exact absurd hsub (hnone xs)
          | jstr s =>
              simp only [extract_topics, hb, Bool.false_eq_true, if_false, hl, hs, hsub]
          | jnum n =>
              simp only [extract_topics, hb, Bool.false_eq_true, if_false, hl, hs, hsub]
          | jbool b =>
              simp only [extract_topics, hb, Bool.false_eq_true, if_false, hl, hs, hsub]
          | jnull =>
              simp only [extract_topics, hb, Bool.false_eq_true, if_false, hl, hs, hsub]
          | jobj fs =>
              simp only [extract_topics, hb, Bool.false_eq_true, if_false, hl, hs, hsub]
  · unfold flatSplit
    exact List.length_take_le 30 _

/-- Instances of `topic_extraction_tiers`: a direct-parse success, a
flat-list fallback, and the LLM-exception path. -/
theorem topic_extraction_tiers_witness :
    extract_topics
        (fun s => if s = "[1]" then some (Json.jarr [Json.jstr "alpha"]) else none)
        (fun j => match j with | Json.jstr s => s | _ => "") "content" (some " [1] ")
      = ["alpha"] ∧
    extract_topics (fun _ => none) (fun _ => "") "content" (some "alpha beta\n- x y z q")
      = ["alpha beta", "x y z q"] ∧
    extract_topics (fun _ => none) (fun _ => "") "content" none = [] := by
  refine ⟨?_, ?_, ?_⟩
  · have h := (topic_extraction_tiers
        (fun s => if s = "[1]" then some (Json.jarr [Json.jstr "alpha"]) else none)
        (fun j => match j with | Json.jstr s => s | _ => "") "content" " [1] ").2.2.1
      (by decide)
    exact (h.1 [Json.jstr "alpha"] rfl).trans rfl
  · have h := (topic_extraction_tiers (fun _ => none) (fun _ => "") "content"
        "alpha beta\n- x y z q").2.2.1 (by decide)
    exact (h.2.2.2.2.2.1 rfl (by decide)).trans (by decide)
  · exact (topic_extraction_tiers (fun _ => none) (fun _ => "") "content" "z").1


/-! ## MCQ generation policy (claim C4) -/

theorem validateStructure_length (l : List RawMCQ) (h : validateStructure l = true) :
    l.length = 5 := by
  simp only [validateStructure, Bool.and_eq_true, beq_iff_eq] at h
  exact h.1

/-- Closed form of the attempt loop: the first structurally-valid-and-
relevant attempt wins; otherwise the `best` slot, otherwise the first
structurally valid attempt, otherwise the empty list. -/
theorem genLoop_closed (topic : String) (l : List (Option (List RawMCQ)))
    (best : Option (List RawMCQ)) :
    genLoop topic l best
      = (match l.find? (attemptGood topic) with
         | some (some x) => x
         | _ =>
            match best with
            | some b => b
            | none =>
                match l.find? attemptValid with
                | some (some x) => x
                | _ => []) := by
  induction l generalizing best with
  | nil => cases best <;> rfl
  | cons a rest ih =>
      cases a with
      | none =>
          simp only [genLoop, List.find?]
          have hg : attemptGood topic none = false := rfl
          have hv : attemptValid none = false := rfl
          rw [hg, hv]
          simpa using ih best
      | some x =>
          by_cases hs : validateStructure x = true
          · by_cases hr : validateRelevance topic x = true
            · have hgood : attemptGood topic (some x) = true := by
                simp [attemptGood, hs, hr]
              simp only [genLoop, hs, hr, if_true, List.find?, hgood]
            · have hgood : attemptGood topic (some x) = false := by
                simp [attemptGood, hs, hr]
              have hvalid : attemptValid (some x) = true := by
                simp [attemptValid, hs]
              simp only [genLoop, hs, hr, if_true, Bool.false_eq_true, if_false,
                List.find?, hgood, hvalid]
              rw [ih (some (best.getD x))]
              cases hfg : rest.find? (attemptGood topic) with
              | some b => cases b <;> cases best <;> rfl
              | none => cases best <;> rfl
          · have hgood : attemptGood topic (some x) = false := by
              simp [attemptGood, hs]
            have hvalid : attemptValid (some x) = false := by
              simp [attemptValid, hs]
            simp only [genLoop, hs, Bool.false_eq_true, if_false, List.find?, hgood, hvalid]
            exact ih best

/-- `generate` returns the empty list or a structurally valid 5-element
list. -/
theorem generate_len (topic : String) (attempts : List (Option (List RawMCQ))) :
    generate topic attempts = []
      ∨ (validateStructure (generate topic attempts) = true
          ∧ (generate topic attempts).length = 5) := by
  unfold generate
  rw [genLoop_closed]
  cases hf : (attempts.take 3).find? (attemptGood topic) with
  | some a =>
      have hp := List.find?_some hf
      cases a with
      | some x =>
          right
          have hx : validateStructure x = true := by
            simp only [attemptGood, Bool.and_eq_true] at hp
            exact hp.1
          exact ⟨hx, validateStructure_length x hx⟩
      | none => exact absurd hp (by simp [attemptGood])
  | none =>
      cases hf2 : (attempts.take 3).find? attemptValid with
      | some a =>
          have hp := List.find?_some hf2
          cases a with
          | some x =>
              right
              have hx : validateStructure x = true := by
                simpa [attemptValid] using hp
              exact ⟨hx, validateStructure_length x hx⟩
          | none => exact absurd hp (by simp [attemptValid])
      | none => left; rfl

/-- Claim C4: `generate` examines at most 3 attempts; it returns the
first attempt that is structurally valid (exactly 5 MCQs with question,
four lettered options and a correct letter in a-d) and relevant; with the
3 attempts exhausted it returns the first structurally valid attempt as
best effort when one exists, else the empty sequence; and any non-empty
result is a structurally valid 5-element list. -/
theorem mcq_generate_policy (topic : String) (attempts : List (Option (List RawMCQ))) :
    generate topic attempts = generate topic (attempts.take 3) ∧
    generate topic attempts
      = (match (attempts.take 3).find? (attemptGood topic) with
         | some (some x) => x
         | _ =>
            match (attempts.take 3).find? attemptValid with
            | some (some x) => x
            | _ => []) ∧
    (generate topic attempts = []
      ∨ (validateStructure (generate topic attempts) = true
          ∧ (generate topic attempts).length = 5)) := by
  refine ⟨by simp [generate, List.take_take], ?_, generate_len topic attempts⟩
  have h := genLoop_closed topic (attempts.take 3) none
  unfold generate
  rw [h]

/-! ## Test state machine invariant (claim C2) -/

/-- The per-state invariant preserved by `testStep`. -/
def invT (s : TSession) : Prop :=
  (s.questions = [] ∨ s.questions.length = 5) ∧
  s.currentQuestionIndex ≤ s.questions.length ∧
  (s.testActive = true → s.questions.length = 5 ∧ s.currentQuestionIndex < 5)

theorem invT_step (msg mode : String) (attempts : List (Option (List RawMCQ)))
    (s : TSession) (h : invT s) : invT (testStep msg mode attempts s).1 := by
  obtain ⟨h1, h2, h3⟩ := h
  simp only [testStep]
  split
  · exact ⟨h1, h2, fun hf => by simp at hf⟩
  · split
    · rename_i hA
      have h5 := h3 hA
      split
      · split
        · exact ⟨h1, h2, fun _ => h5⟩
        · rename_i q hq
          split
          · exact ⟨Or.inl rfl, Nat.le_refl 0, fun hf => by simp at hf⟩
          · rename_i hne
            have hne2 : ¬(s.currentQuestionIndex + 1 = s.questions.length) := hne
            have e1 := h5.1
            have e2 := h5.2
            refine ⟨h1, ?_, fun _ => ⟨h5.1, ?_⟩⟩
            · show s.currentQuestionIndex + 1 ≤ s.questions.length
              omega
            · show s.currentQuestionIndex + 1 < 5
              omega
      · exact ⟨h1, h2, fun _ => h5⟩
    · rename_i hA
      split
      · exact ⟨h1, h2, fun hf => h3 hf⟩
      · split
        · exact ⟨h1, h2, fun hf => by simp at hf⟩
        · rename_i hqs
          rcases generate_len ((lockTopic s.topic (pyTrim msg)).1) attempts with hq | hq
          · rw [hq] at hqs
            simp at hqs
          · refine ⟨Or.inr hq.2, Nat.zero_le _, fun _ => ⟨hq.2, ?_⟩⟩
            show (0 : Nat) < 5
            omega

/-- Claim C2 (amended): in every reachable test-machine state, questions
has exactly 5 elements and the index is below 5 whenever testActive is
true; the questions list always has length 0 or 5 (a mid-test mode switch
clears testActive but leaves the stale 5-element list, so "empty whenever
testActive is false" holds only up to that exception); the index always
lies in [0, len(questions)]; and the letter answer that advances the
index to len(questions) terminates the test, resetting testActive,
questions, index and score and restoring teach mode. -/
theorem test_state_invariant (s : TSession) (h : ReachT s) :
    (s.testActive = true → s.questions.length = 5 ∧ s.currentQuestionIndex < 5) ∧
    (s.questions = [] ∨ s.questions.length = 5) ∧
    s.currentQuestionIndex ≤ s.questions.length ∧
    (∀ (msg : String) (attempts : List (Option (List RawMCQ))),
      s.testActive = true →
      (pyLower (pyTrim msg) = "a" ∨ pyLower (pyTrim msg) = "b" ∨
        pyLower (pyTrim msg) = "c" ∨ pyLower (pyTrim msg) = "d") →
      s.currentQuestionIndex + 1 = s.questions.length →
      ((testStep msg "test" attempts s).1.testActive = false ∧
       (testStep msg "test" attempts s).1.questions = [] ∧
       (testStep msg "test" attempts s).1.currentQuestionIndex = 0 ∧
       (testStep msg "test" attempts s).1.score = 0 ∧
       (testStep msg "test" attempts s).1.mode = "teach")) := by
  have hi : invT s := by
    induction h with
    | fresh => exact ⟨Or.inl rfl, Nat.le_refl 0, fun hf => by simp [freshT] at hf⟩
    | step msg mode attempts s hs ih => exact invT_step msg mode attempts s ih
  obtain ⟨h1, h2, h3⟩ := hi
  refine ⟨h3, h1, h2, ?_⟩
  intro msg attempts hA hl hterm
  have h5 := h3 hA
  simp only [testStep]
  rw [if_neg (by decide : ¬(normMode "test" = "teach" ∨ normMode "test" = "practice"))]
  rw [if_pos hA, if_pos hl]
  cases hq : s.questions.get? s.currentQuestionIndex with
  | none =>
      have hl2 : s.questions.length ≤ s.currentQuestionIndex := List.get?_eq_none.mp hq
      omega
  | some q =>
      dsimp only
      rw [if_pos hterm]
      exact ⟨rfl, rfl, rfl, rfl, rfl⟩

/-- Instance of `test_state_invariant` at the reachable state right after
a successful test start: the test is active with 5 stored questions and
the index below 5. -/
theorem test_state_invariant_witness :
    ((testStep "start the test now" "test" [some fiveMCQs] freshT).1.testActive = true →
      (testStep "start the test now" "test" [some fiveMCQs] freshT).1.questions.length = 5 ∧
      (testStep "start the test now" "test" [some fiveMCQs] freshT).1.currentQuestionIndex < 5) ∧
    ((testStep "start the test now" "test" [some fiveMCQs] freshT).1.questions = [] ∨
     (testStep "start the test now" "test" [some fiveMCQs] freshT).1.questions.length = 5) := by
  have h := test_state_invariant (testStep "start the test now" "test" [some fiveMCQs] freshT).1
    (ReachT.step _ _ _ _ ReachT.fresh)
  exact ⟨h.1, h.2.1⟩

/-- Claim C2 counterexample: start a test (five questions stored, test
active), then send a teach-mode turn — the reachable result has
testActive false but still stores the stale 5-question list, refuting
"questions is empty whenever testActive is false". -/
theorem test_state_counterexample :
    ReachT (testStep "explain more please" "teach" []
      (testStep "start the test now" "test" [some fiveMCQs] freshT).1).1 ∧
    (testStep "explain more please" "teach" []
      (testStep "start the test now" "test" [some fiveMCQs] freshT).1).1.testActive = false ∧
    (testStep "explain more please" "teach" []
      (testStep "start the test now" "test" [some fiveMCQs] freshT).1).1.questions.length = 5 :=
  ⟨ReachT.step _ _ _ _ (ReachT.step _ _ _ _ ReachT.fresh), by decide, by decide⟩

/-! ## Test answer grading (claim C3) -/

/-- Claim C3: during an active test, a single-letter turn is graded
against the stored correct letter of the current question
(case-insensitively): on a match the score is incremented (reported in
the terminal summary, stored otherwise) and the weak topics are
untouched; on a mismatch the locked topic's weak count is incremented by
one, the score is unchanged, and the feedback names the stored correct
letter; the question index advances by one in both cases (wrapping into
the terminal reset when it reaches the question count, which also
deactivates the test). -/
theorem test_grading (s : TSession) (msg : String)
    (attempts : List (Option (List RawMCQ))) (q : RawMCQ)
    (hA : s.testActive = true)
    (hq : s.questions.get? s.currentQuestionIndex = some q)
    (hl : pyLower (pyTrim msg) = "a" ∨ pyLower (pyTrim msg) = "b" ∨
          pyLower (pyTrim msg) = "c" ∨ pyLower (pyTrim msg) = "d") :
    (pyLower (pyTrim msg) = q.correctLetter →
      (testStep msg "test" attempts s).1.weakTopics = s.weakTopics ∧
      (s.currentQuestionIndex + 1 ≠ s.questions.length →
        (testStep msg "test" attempts s).1.score = s.score + 1) ∧
      ((testStep msg "test" attempts s).2
          = TestResp.feedbackNext true q.correctLetter
              ((s.questions.get? (s.currentQuestionIndex + 1)).getD q) ∨
       (testStep msg "test" attempts s).2
          = TestResp.feedbackDone true q.correctLetter (s.score + 1) s.questions.length)) ∧
    (pyLower (pyTrim msg) ≠ q.correctLetter →
      wtGet (testStep msg "test" attempts s).1.weakTopics
          (lockTopic s.topic (pyTrim msg)).1
        = wtGet s.weakTopics (lockTopic s.topic (pyTrim msg)).1 + 1 ∧
      (s.currentQuestionIndex + 1 ≠ s.questions.length →
        (testStep msg "test" attempts s).1.score = s.score) ∧
      ((testStep msg "test" attempts s).2
          = TestResp.feedbackNext false q.correctLetter
              ((s.questions.get? (s.currentQuestionIndex + 1)).getD q) ∨
       (testStep msg "test" attempts s).2
          = TestResp.feedbackDone false q.correctLetter s.score s.questions.length)) ∧
    (testStep msg "test" attempts s).1.currentQuestionIndex
      = (if s.currentQuestionIndex + 1 = s.questions.length then 0
         else s.currentQuestionIndex + 1) ∧
    (s.currentQuestionIndex + 1 = s.questions.length →
      (testStep msg "test" attempts s).1.testActive = false) := by
  simp only [testStep]
  rw [if_neg (by decide : ¬(normMode "test" = "teach" ∨ normMode "test" = "practice"))]
  rw [if_pos hA, if_pos hl]
  rw [show ({ s with topic := (lockTopic s.topic (pyTrim msg)).1 } :
    TSession).questions.get? s.currentQuestionIndex = some q from hq]
  dsimp only
  by_cases hterm : s.currentQuestionIndex + 1 = s.questions.length
  · rw [if_pos hterm]
    exact ⟨fun hcc => ⟨by simp [hcc], fun hne => absurd hterm hne, Or.inr (by simp [hcc])⟩,
           fun hnc => ⟨by simp [hnc, wtGet_wtIncr_self], fun hne => absurd hterm hne,
             Or.inr (by simp [hnc])⟩,
           by rw [if_pos hterm], fun _ => rfl⟩
  · rw [if_neg hterm]
    exact ⟨fun hcc => ⟨by simp [hcc], fun _ => by simp [hcc], Or.inl (by simp [hcc])⟩,
           fun hnc => ⟨by simp [hnc, wtGet_wtIncr_self], fun _ => by simp [hnc],
             Or.inl (by simp [hnc])⟩,
           by rw [if_neg hterm], fun habs => absurd habs hterm⟩

/-- Instance of `test_grading`: answering "b" when the stored correct
letter is "a" bumps the weak count of the locked topic to 1, the feedback
names the correct letter "a", and the index advances to 1. -/
theorem test_grading_witness :
    wtGet (testStep "b" "test" [] midTestSession).1.weakTopics
        (lockTopic midTestSession.topic (pyTrim "b")).1 = 1 ∧
    (testStep "b" "test" [] midTestSession).2
      = TestResp.feedbackNext false "a" mcqSample ∧
    (testStep "b" "test" [] midTestSession).1.currentQuestionIndex = 1 := by
  have h := test_grading midTestSession "b" [] mcqSample rfl rfl (by decide)
  refine ⟨?_, by decide, by decide⟩
  exact ((h.2.1 (by decide)).1).trans (by decide)

end ExamAI
